import Mathlib

/-!
Verification development for the smiles-vscode extension core.

Each definition below is a shallow embedding of a function of the repository,
translated statement-by-statement from the JavaScript source.  The relevant
source files are `src/diagnostics.js`, `src/lineTracker.js`,
`src/roundtripDiagnostics.js` (round-trip checker), and
`src/refactorMolecule.js` (refactor command).  External collaborators
(the `selfies-js` engine, dynamic module execution, the file system) are
modelled as explicit parameters carrying their outcome for the call under
consideration.  JavaScript strings are modelled as Lean `String`s, and string
processing is done on the underlying `List Char` so that all definitions
compute by kernel reduction.  JavaScript numbers holding engine coordinates
are modelled as `Int` (the conversion code subtracts 1 without any clamping);
counters and indices that are provably non-negative are modelled as `Nat`.
-/

namespace SmilesVscode

/-- JS truthiness of a possibly-absent string value: `undefined`/`null`
(modelled as `none`) and the empty string are falsy. -/
def truthy : Option String → Bool
  | none => false
  | some s => !(s == "")

/-- JS `a || b` for possibly-absent string values (first operand when truthy,
otherwise the second). -/
def jsOr (a b : Option String) : Option String :=
  if truthy a then a else b

/-- JS `a || b` where the fallback is a plain (always truthy) string. -/
def jsOrDefault (a : Option String) (b : String) : String :=
  match a with
  | some s => if s == "" then b else s
  | none => b

/-- Outcome of calling an external JS function: a returned value or a thrown
exception carrying `err.message`. -/
inductive JSResult (α : Type)
  | ok (value : α)
  | exn (message : String)
deriving DecidableEq, Repr

/-! ### Character-list string helpers

Kernel-computable replacements for the JS string operations used by the
sources (`split`, `trim`, `startsWith`, concatenation of lines).  JS `\s` and
`trim()` whitespace is modelled by `Char.isWhitespace`. -/

def isSpaceChar (c : Char) : Bool := c.isWhitespace

/-- JS `\w` character class: letters, digits, underscore. -/
def isWordChar (c : Char) : Bool := c.isAlphanum || c == '_'

/-- The single-quote character (written via its code point). -/
def singleQuoteChar : Char := Char.ofNat 39

/-- The double-quote character (written via its code point). -/
def doubleQuoteChar : Char := Char.ofNat 34

/-- Split a character list at every occurrence of `sep` (JS `text.split(sep)`
for a one-character separator). -/
def splitOnChar (sep : Char) : List Char → List (List Char)
  | [] => [[]]
  | c :: rest =>
    match splitOnChar sep rest with
    | [] => if c == sep then [[], []] else [[c]]
    | h :: t => if c == sep then [] :: h :: t else (c :: h) :: t

/-- Join character lists with the separator `sep` between them (inverse of
`splitOnChar`, JS `array.join(sep)`). -/
def joinWith (sep : List Char) : List (List Char) → List Char
  | [] => []
  | [l] => l
  | l :: rest => l ++ sep ++ joinWith sep rest

/-- Split a string into its lines (JS `text.split('\n')`). -/
def splitLines (text : String) : List String :=
  (splitOnChar '\n' text.data).map String.mk

/-- Re-join lines with newline characters. -/
def joinLines (lines : List String) : String :=
  String.mk (joinWith ['\n'] (lines.map String.data))

/-- JS `String.prototype.trim()`. -/
def jsTrim (s : String) : String :=
  String.mk (((s.data.dropWhile isSpaceChar).reverse.dropWhile isSpaceChar).reverse)

/-- JS `String.prototype.startsWith(prefix)`. -/
def jsStartsWith (s pre : String) : Bool :=
  pre.data.isPrefixOf s.data

/-- Whether `sub` occurs as a contiguous substring of the character list
(JS `haystack.includes(sub)`). -/
def hasSubstr : List Char → List Char → Bool
  | [], sub => sub.isEmpty
  | l@(_ :: rest), sub => if sub.isPrefixOf l then true else hasSubstr rest sub

/-!
### Diagnostics conversion — `src/diagnostics.js`

`getSeverity` (lines 101–119) and the error/warning publication loops of
`updateDiagnostics` (lines 172–199 for `result.errors`, lines 204–223 for
`result.warnings`).  An engine error/warning record is a JS object whose
fields may be absent; the code distinguishes absent (`!== undefined`) from
falsy, so every field is an `Option`.
-/

/-- VS Code diagnostic severity levels. -/
inductive Severity
  | error
  | warning
  | information
  | hint
deriving DecidableEq, Repr

/-- Transliteration of `getSeverity` (diagnostics.js lines 101–119): a
switch on the category string whose fall-through case groups become grouped
strict-equality tests; `undefined` and every unmatched string fall to the
default `Error` case. -/
def getSeverity : Option String → Severity
  | some s =>
    if s == "error" || s == "syntax" || s == "undefined" || s == "circular" ||
        s == "redefinition" then .error
    else if s == "warning" || s == "chemistry" then .warning
    else if s == "info" then .information
    else if s == "hint" then .hint
    else .error
  | none => .error

/-- An error or warning record as reported by the `selfies-js` engine
(1-based `line`/`column`/`endColumn` when present). -/
structure EngineIssue where
  line : Option Int
  column : Option Int
  endColumn : Option Int
  type : Option String
  severity : Option String
  message : String
  code : Option String
deriving DecidableEq, Repr

/-- A 0-based editor position. -/
structure EditorPos where
  line : Int
  character : Int
deriving DecidableEq, Repr

/-- An editor range. -/
structure EditorRange where
  startPos : EditorPos
  endPos : EditorPos
deriving DecidableEq, Repr

/-- A published VS Code diagnostic (the fields set by `updateDiagnostics`). -/
structure Diagnostic where
  range : EditorRange
  message : String
  severity : Severity
  source : String
  code : Option String
deriving DecidableEq, Repr

/-- Body of the `result.errors.forEach` loop (diagnostics.js lines 172–199):
1-based→0-based conversion with `endColumn` defaulting to `column + 1`,
severity via `getSeverity(error.type || error.severity)`, `source`
`'selfies'`, `code` copied when truthy. -/
def errorToDiagnostic (error : EngineIssue) : Diagnostic :=
  let line := match error.line with
    | some l => l - 1
    | none => 0
  let column := match error.column with
    | some c => c - 1
    | none => 0
  let endColumn := match error.endColumn with
    | some e => e - 1
    | none => column + 1
  { range := ⟨⟨line, column⟩, ⟨line, endColumn⟩⟩
    message := error.message
    severity := getSeverity (jsOr error.type error.severity)
    source := "selfies"
    code := if truthy error.code then error.code else none }

/-- Body of the `result.warnings.forEach` loop (diagnostics.js lines
204–223): same coordinate conversion, but the severity is the constant
`vscode.DiagnosticSeverity.Warning` and no `code` is attached. -/
def warningToDiagnostic (warning : EngineIssue) : Diagnostic :=
  let line := match warning.line with
    | some l => l - 1
    | none => 0
  let column := match warning.column with
    | some c => c - 1
    | none => 0
  let endColumn := match warning.endColumn with
    | some e => e - 1
    | none => column + 1
  { range := ⟨⟨line, column⟩, ⟨line, endColumn⟩⟩
    message := warning.message
    severity := .warning
    source := "selfies"
    code := none }

/-- The diagnostics published for a successfully parsed DSL document: the
converted errors followed by the converted warnings (diagnostics.js lines
171–224). -/
def selfiesDiagnostics (errors warnings : List EngineIssue) : List Diagnostic :=
  errors.map errorToDiagnostic ++ warnings.map warningToDiagnostic

/-!
### Cursor tracker events — `src/lineTracker.js`

`_handleSelectionChange` (lines 71–84) and the `onDidChangeActiveTextEditor`
listener installed by the constructor (lines 42–55).  Documents are
identified by an id; `editorSupported` models
`editor && this._isSupportedFile(editor.document)`.
-/

/-- A token of a DSL definition as handled by `_formatTokens`
(lineTracker.js lines 103–112): a plain string, a `REPEAT_CALL` object, or
any other value displayed via JS `String(token)`. -/
inductive Token
  | str (s : String)
  | repeatCall (pattern : String) (count : Int)
  | otherVal (display : String)
deriving DecidableEq, Repr

/-- A DSL definition as produced by the engine's parse: name, 1-based source
line, and an optional token sequence. -/
structure Definition where
  name : String
  line : Nat
  tokens : Option (List Token)
deriving DecidableEq, Repr

/-- Mutable state of the `LineTracker` (lineTracker.js lines 17–19):
`_currentLine`, `_currentDocument`, `_parseResult` (of which only the
definitions are consumed). -/
structure TrackerState where
  currentLine : Option Nat
  currentDocument : Option Nat
  parseResult : Option (List Definition)
deriving DecidableEq, Repr

/-- Transliteration of `_handleSelectionChange` (lineTracker.js lines
71–84).  Returns the new state and whether `_updateLineInfo` (a resolve) was
triggered.  The handler only checks that the event's editor is present and
supported; it never compares the event's document with `_currentDocument`. -/
def handleSelectionChange (st : TrackerState) (editorSupported : Bool)
    (lineNumber : Nat) : TrackerState × Bool :=
  if !editorSupported then (st, false)
  else if st.currentLine ≠ some lineNumber then
    ({ st with currentLine := some lineNumber }, true)
  else (st, false)

/-- Transliteration of the active-editor-change listener (lineTracker.js
lines 42–55).  On a supported editor it resets the parse cache when the
document changed and always triggers `_updateLineInfo`, even when the line
index is unchanged. -/
def handleEditorChange (st : TrackerState) (editorSupported : Bool)
    (docId : Nat) (lineNumber : Nat) : TrackerState × Bool :=
  if editorSupported then
    let st1 :=
      if st.currentDocument ≠ some docId then
        { st with parseResult := none, currentDocument := some docId }
      else st
    ({ st1 with currentLine := some lineNumber }, true)
  else (st, false)

/-!
### Line resolution — `_updateLineInfo` in `src/lineTracker.js`

The object fired through `_onDidChangeCurrentLine` is either `null`
(modelled `none`) or a line-info record; absent JS fields are `none`.
The external engine calls (`resolve`, `decode`, `getMolecularWeight`,
`getFormula`) are passed in as `JSResult` parameters describing what the
engine did for this invocation.  Molecular weights (JS numbers) are
modelled as `Int`; only their presence matters to the control flow.
-/

/-- The record fired to `onDidChangeCurrentLine` subscribers. -/
structure LineInfo where
  line : Nat
  name : String
  expression : String
  selfies : Option String
  smiles : Option String
  molecularWeight : Option Int
  formula : Option String
  error : Option String
deriving DecidableEq, Repr

/-- Transliteration of `_formatTokens` (lineTracker.js lines 103–112). -/
def formatToken : Token → String
  | .str s => s
  | .repeatCall pattern count =>
      "repeat(" ++ pattern ++ ", " ++ Int.repr count ++ ")"
  | .otherVal display => display

/-- Map `formatToken` over the tokens and join (`.map(...).join('')`). -/
def formatTokens (tokens : List Token) : String :=
  String.join (tokens.map formatToken)

/-- The `definition.tokens ? this._formatTokens(definition.tokens) : ''`
expression used for the `expression` field (lines 311 and 340). -/
def definitionExpression (definition : Definition) : String :=
  match definition.tokens with
  | some ts => formatTokens ts
  | none => ""

/-- Transliteration of the `.selfies` (DSL) branch of `_updateLineInfo`
(lineTracker.js lines 273–348): skip blank/`#`-comment lines, look up the
definition with 1-based `line` equal to `currentLine + 1`, then run
resolve → decode → property lookups, each stage being a `try`/`catch`.
`none` models firing `null`. -/
def updateLineInfoDsl (currentLine : Nat) (rawLineText : String)
    (defs : List Definition) (resolveResult : JSResult (Option String))
    (decodeResult : JSResult (Option String)) (weightResult : JSResult Int)
    (formulaResult : JSResult String) : Option LineInfo :=
  let lineText := jsTrim rawLineText
  if lineText == "" || jsStartsWith lineText "#" then none
  else
    match defs.find? (fun d => d.line == currentLine + 1) with
    | none => none
    | some definition =>
      -- resolve stage (lines 301–305)
      let resolved : Option String × Option String :=
        match resolveResult with
        | .ok v => (v, none)
        | .exn m => (none, some m)
      let selfies := resolved.1
      let error := resolved.2
      if !truthy selfies then
        -- early return with a partial record (lines 307–315)
        some ⟨currentLine, definition.name, definitionExpression definition,
              none, none, none, none,
              some (jsOrDefault error "Could not resolve definition")⟩
      else
        -- decode stage (lines 318–322)
        let decoded : Option String × Option String :=
          match decodeResult with
          | .ok v => (v, error)
          | .exn m => (none, some m)
        let smiles := decoded.1
        let error2 := decoded.2
        -- property stage (lines 325–335): exceptions are swallowed
        let props : Option Int × Option String :=
          if truthy selfies && !truthy error2 then
            match weightResult with
            | .exn _ => (none, none)
            | .ok w =>
              match formulaResult with
              | .exn _ => (some w, none)
              | .ok f => (some w, some f)
          else (none, none)
        some ⟨currentLine, definition.name, definitionExpression definition,
              selfies, smiles, props.1, props.2, error2⟩

/-- The exported value of a build-format module as consumed by
`_updateLineInfo` (lineTracker.js lines 243–267): the `.smiles`, and the
`.molecularWeight`/`.formula` carried into the fired record. -/
structure Fragment where
  smiles : Option String
  molecularWeight : Option Int
  formula : Option String
deriving DecidableEq, Repr

/-- Transliteration of the `.smiles.js` branch of `_updateLineInfo` after
the module load returned (lineTracker.js lines 228–270).  `exports` models
the loaded module (`none` for a falsy module), with `exports name = none`
when `module[exportName]` is falsy; `loadError` is the `error` half of the
`_loadSmilesModule` result; `lineText` is the trimmed current line. -/
def updateLineInfoSmilesJs (currentLine : Nat) (lineText : String)
    (exportName : String) (exports : Option (String → Option Fragment))
    (loadError : Option String) : Option LineInfo :=
  if truthy loadError then
    some ⟨currentLine, exportName, lineText, none, none, none, none, loadError⟩
  else
    match exports with
    | none => none
    | some module =>
      match module exportName with
      | none => none
      | some fragment =>
        if !truthy fragment.smiles then none
        else
          some ⟨currentLine, exportName, lineText, none, fragment.smiles,
                fragment.molecularWeight, fragment.formula, none⟩

/-!
### Round-trip literal extraction — `src/roundtripDiagnostics.js`

`looksLikeSMILES` (lines 16–23) and `extractSMILESFromLine` (lines 31–67).
The two JS regex loops are modelled by explicit left-to-right scanners with
the exact leftmost-match and `lastIndex` continuation semantics of
`RegExp.prototype.exec` with the `g` flag.  Both scanners consume at least
one character per step, so a fuel argument initialised to the line length
makes them structurally recursive without changing their result.
-/

/-- The character class of the `smilesPattern` regex
`/[CNOPSFClBrI[\]()=@#\\/+-]/` (note `Cl` and `Br` contribute the single
characters `C`, `l`, `B`, `r`). -/
def smilesCharClass : List Char :=
  ['C', 'N', 'O', 'P', 'S', 'F', 'l', 'B', 'r', 'I', '[', ']', '(', ')',
   '=', '@', '#', Char.ofNat 92, '/', '+', '-']

/-- Transliteration of `looksLikeSMILES` (roundtripDiagnostics.js lines
16–23): a characteristic character, and a digit or a bond symbol. -/
def looksLikeSMILES (line : String) : Bool :=
  line.data.any (fun c => smilesCharClass.contains c) &&
    (line.data.any Char.isDigit ||
     line.data.any (fun c => c == '=' || c == '#'))

/-- Is the character one of the two JS quote characters of the class
`['"]`? -/
def isQuoteChar (c : Char) : Bool :=
  c == singleQuoteChar || c == doubleQuoteChar

/-- An extracted SMILES occurrence, as pushed by `extractSMILESFromLine`:
the literal, its start and end columns, and the line number. -/
structure SmilesOccurrence where
  smiles : String
  start : Nat
  stop : Nat
  line : Nat
deriving DecidableEq, Repr

/-- Pattern 1 of `extractSMILESFromLine` (lines 34–49): the global regex
`(['"])(.*?)\1`.  `pos` is the absolute index of the head of the remaining
character list.  A match needs a quote character with a later occurrence of
the same quote on the line; the lazy `(.*?)` stops at the first one.  The
entry is pushed only when the content passes `looksLikeSMILES`;
continuation is from the character after the closing quote. -/
def scanStringLiterals (lineNumber : Nat) : Nat → List Char → Nat → List SmilesOccurrence
  | 0, _, _ => []
  | _ + 1, [], _ => []
  | fuel + 1, c :: rest, pos =>
    if isQuoteChar c then
      match rest.findIdx? (fun x => x == c) with
      | some k =>
        let content := String.mk (rest.take k)
        let tail := scanStringLiterals lineNumber fuel (rest.drop (k + 1)) (pos + k + 2)
        if looksLikeSMILES content then
          ⟨content, pos + 1, pos + k + 1, lineNumber⟩ :: tail
        else tail
      | none => scanStringLiterals lineNumber fuel rest (pos + 1)
    else scanStringLiterals lineNumber fuel rest (pos + 1)

/-- Attempt to match the regex `smiles\s*:\s*(['"])(.*?)\1` at the head of
`l`.  On success, returns the content characters and the offset of the
opening quote within `l` (the regex in the source recovers that offset via
`match2[0].indexOf(match2[1])`, and the first occurrence of the quote
character in the matched text is the opening quote). -/
def matchSmilesFieldAt (l : List Char) : Option (List Char × Nat) :=
  if l.take 6 = "smiles".data then
    let l1 := l.drop 6
    let w1 := (l1.takeWhile isSpaceChar).length
    match l1.dropWhile isSpaceChar with
    | ':' :: l3 =>
      let w2 := (l3.takeWhile isSpaceChar).length
      match l3.dropWhile isSpaceChar with
      | q :: l5 =>
        if isQuoteChar q then
          match l5.findIdx? (fun x => x == q) with
          | some k => some (l5.take k, 6 + w1 + 1 + w2)
          | none => none
        else none
      | [] => none
    | _ => none
  else none

/-- Pattern 2 of `extractSMILESFromLine` (lines 52–64): the global regex
`smiles\s*:\s*(['"])(.*?)\1`.  Every match is pushed unconditionally (no
`looksLikeSMILES` filter); `start` is the index after the opening quote and
`stop` is `start + smiles.length`. -/
def scanSmilesField (lineNumber : Nat) : Nat → List Char → Nat → List SmilesOccurrence
  | 0, _, _ => []
  | _ + 1, [], _ => []
  | fuel + 1, l@(_ :: rest), pos =>
    match matchSmilesFieldAt l with
    | some (content, qoff) =>
      let start := pos + qoff + 1
      let consumed := qoff + 1 + content.length + 1
      ⟨String.mk content, start, start + content.length, lineNumber⟩ ::
        scanSmilesField lineNumber fuel (l.drop consumed) (pos + consumed)
    | none => scanSmilesField lineNumber fuel rest (pos + 1)

/-- Transliteration of `extractSMILESFromLine` (roundtripDiagnostics.js
lines 31–67): the entries found by the string-literal pattern followed by
the entries found by the `smiles:` field pattern. -/
def extractSMILESFromLine (line : String) (lineNumber : Nat) : List SmilesOccurrence :=
  scanStringLiterals lineNumber line.data.length line.data 0 ++
    scanSmilesField lineNumber line.data.length line.data 0

/-!
### Module cache — `_loadSmilesModule` in `src/lineTracker.js` (lines 118–151)

The cache is the `Map` in `this._smilesModuleCache`, keyed by the template
string `` `${filePath}:${fs.statSync(filePath).mtimeMs}` ``.  The modelled
entry also records, as verification-only metadata, the path and modification
time that produced the key.  The dynamic `import` is an external effect and
enters as a `JSResult`; `stackLine` models the optional `:(\d+):\d+` line
number extracted from the failure's stack or message.  The emitted
`CacheOp` trace records the order of the observable cache operations.
-/

/-- The cache key `` `${filePath}:${mtimeMs}` `` (lineTracker.js line 120).
`Nat.repr` plays the role of JS number-to-string conversion. -/
def mkCacheKey (filePath : String) (mtimeMs : Nat) : String :=
  filePath ++ ":" ++ Nat.repr mtimeMs

/-- A resident cache entry: the key as built by the source, plus the capture
metadata (path, modification time, exports) it was installed with. -/
structure CacheEntry (Mod : Type) where
  key : String
  path : String
  mtime : Nat
  exports : Mod
deriving DecidableEq, Repr

/-- The `{ module, error }` object returned by `_loadSmilesModule`. -/
structure LoadResult (Mod : Type) where
  module : Option Mod
  error : Option String
deriving DecidableEq, Repr

/-- Observable cache operations of one `_loadSmilesModule` call, in program
order: the cache hit read, `delete require.cache[...]`, the dynamic
`import`, `this._smilesModuleCache.clear()`, and
`this._smilesModuleCache.set(...)`. -/
inductive CacheOp
  | cacheHit
  | requireCacheDelete
  | dynamicImport
  | cacheClear
  | cacheSet
deriving DecidableEq, Repr

/-- Transliteration of `_loadSmilesModule` (lineTracker.js lines 118–151).
Returns the cache after the call, the `{ module, error }` result, and the
trace of cache operations performed.  On a hit the cached module is
returned unchanged; on a miss the fresh import runs first and the
whole-cache `clear()` happens afterwards (line 134 on success, line 140 in
the catch block). -/
def loadSmilesModule {Mod : Type} (cache : List (CacheEntry Mod))
    (filePath : String) (mtimeMs : Nat) (importResult : JSResult Mod)
    (stackLine : Option Nat) :
    List (CacheEntry Mod) × LoadResult Mod × List CacheOp :=
  let cacheKey := mkCacheKey filePath mtimeMs
  match cache.find? (fun e => e.key == cacheKey) with
  | some entry => (cache, ⟨some entry.exports, none⟩, [.cacheHit])
  | none =>
    match importResult with
    | .ok m =>
      ([⟨cacheKey, filePath, mtimeMs, m⟩], ⟨some m, none⟩,
       [.requireCacheDelete, .dynamicImport, .cacheClear, .cacheSet])
    | .exn msg =>
      let errorMessage :=
        match stackLine with
        | some n => "Line " ++ Nat.repr n ++ ": " ++ msg
        | none => msg
      ([], ⟨none, some errorMessage⟩,
       [.requireCacheDelete, .dynamicImport, .cacheClear])

/-- The caches reachable from the tracker's initial empty `Map`
(lineTracker.js line 39) through `_loadSmilesModule` calls, which are the
only code touching `_smilesModuleCache`. -/
inductive ReachableCache {Mod : Type} : List (CacheEntry Mod) → Prop
  | init : ReachableCache []
  | step (cache : List (CacheEntry Mod)) (filePath : String) (mtimeMs : Nat)
      (importResult : JSResult Mod) (stackLine : Option Nat) :
      ReachableCache cache →
      ReachableCache (loadSmilesModule cache filePath mtimeMs importResult stackLine).1

/-- Whether (the first occurrence of) `a` comes strictly before (the first
occurrence of) `b` in the trace. -/
def opOccursBefore (a b : CacheOp) (trace : List CacheOp) : Bool :=
  match trace.findIdx? (fun op => op == a), trace.findIdx? (fun op => op == b) with
  | some i, some j => decide (i < j)
  | _, _ => false

/-!
### Decimal representation facts

`mkCacheKey` embeds the modification time via `Nat.repr`; the freshness
argument for the cache needs that two distinct modification times yield two
distinct keys.  `decDigits` is a structurally transparent decimal printer
proved equal to core's fuelled `Nat.toDigitsCore`, giving injectivity of
`Nat.repr` and that its characters are digits (in particular not `':'`).
-/

/-- Decimal digits of `n`, most significant first. -/
def decDigits (n : Nat) : List Char :=
  if _h : n < 10 then [Nat.digitChar n]
  else decDigits (n / 10) ++ [Nat.digitChar (n % 10)]
decreasing_by exact Nat.div_lt_self (by omega) (by omega)

/-- Value of a digit list, most significant first. -/
def val10 (l : List Char) : Nat :=
  l.foldl (fun a c => 10 * a + (c.toNat - 48)) 0

theorem digitChar_toNat_sub (m : Nat) (h : m < 10) :
    (Nat.digitChar m).toNat - 48 = m := by
  interval_cases m <;> rfl

theorem digitChar_isDigit (m : Nat) (h : m < 10) :
    (Nat.digitChar m).isDigit = true := by
  interval_cases m <;> rfl

theorem val10_append (l : List Char) (c : Char) :
    val10 (l ++ [c]) = 10 * val10 l + (c.toNat - 48) := by
  simp [val10, List.foldl_append]

theorem val10_decDigits (n : Nat) : val10 (decDigits n) = n := by
  induction n using Nat.strong_induction_on with
  | _ n ih =>
    by_cases h : n < 10
    · rw [decDigits, dif_pos h]
      simp [val10, digitChar_toNat_sub n h]
    · rw [decDigits, dif_neg h, val10_append,
        ih (n / 10) (Nat.div_lt_self (by omega) (by omega)),
        digitChar_toNat_sub (n % 10) (Nat.mod_lt _ (by omega))]
      omega

theorem decDigits_isDigit (n : Nat) : ∀ c ∈ decDigits n, c.isDigit = true := by
  induction n using Nat.strong_induction_on with
  | _ n ih =>
    by_cases h : n < 10
    · rw [decDigits, dif_pos h]
      intro c hc
      simp only [List.mem_singleton] at hc
      subst hc
      exact digitChar_isDigit n h
    · rw [decDigits, dif_neg h]
      intro c hc
      rcases List.mem_append.mp hc with hm | hm
      · exact ih (n / 10) (Nat.div_lt_self (by omega) (by omega)) c hm
      · simp only [List.mem_singleton] at hm
        subst hm
        exact digitChar_isDigit (n % 10) (Nat.mod_lt _ (by omega))

theorem toDigitsCore_eq_decDigits :
    ∀ (fuel n : Nat) (l : List Char), n < fuel →
      Nat.toDigitsCore 10 fuel n l = decDigits n ++ l := by
  intro fuel
  induction fuel with
  | zero => intro n l h; omega
  | succ f ih =>
    intro n l h
    rw [Nat.toDigitsCore]
    by_cases h0 : n / 10 = 0
    · simp only [h0, if_true]
      rw [decDigits, dif_pos (by omega : n < 10)]
      rw [Nat.mod_eq_of_lt (by omega : n < 10)]
      simp
    · simp only [h0, if_false]
      have hrhs : decDigits n = decDigits (n / 10) ++ [Nat.digitChar (n % 10)] := by
        rw [decDigits, dif_neg (show ¬ n < 10 by omega)]
      rw [ih (n / 10) _ (by omega), hrhs]
      simp

theorem repr_eq_decDigits (n : Nat) : Nat.repr n = String.mk (decDigits n) := by
  show (Nat.toDigits 10 n).asString = String.mk (decDigits n)
  show (Nat.toDigitsCore 10 (n + 1) n []).asString = String.mk (decDigits n)
  rw [toDigitsCore_eq_decDigits (n + 1) n [] (by omega)]
  simp [List.asString]

theorem natRepr_injective (m n : Nat) (h : Nat.repr m = Nat.repr n) : m = n := by
  rw [repr_eq_decDigits, repr_eq_decDigits] at h
  have hd : decDigits m = decDigits n := congrArg String.data h
  have := congrArg val10 hd
  rwa [val10_decDigits, val10_decDigits] at this

theorem natRepr_no_colon (n : Nat) : ∀ c ∈ (Nat.repr n).data, c ≠ ':' := by
  rw [repr_eq_decDigits]
  intro c hc
  have := decDigits_isDigit n c hc
  intro hcolon
  subst hcolon
  simp at this

theorem append_colon_inj (r₁ : List Char) :
    ∀ (r₂ a₁ a₂ : List Char), (∀ c ∈ r₁, c ≠ ':') → (∀ c ∈ r₂, c ≠ ':') →
      r₁ ++ ':' :: a₁ = r₂ ++ ':' :: a₂ → r₁ = r₂ ∧ a₁ = a₂ := by
  induction r₁ with
  | nil =>
    intro r₂ a₁ a₂ _ h₂ h
    cases r₂ with
    | nil => simpa using h
    | cons c t =>
      simp only [List.nil_append, List.cons_append, List.cons.injEq] at h
      exact absurd h.1.symm (h₂ c (List.mem_cons_self c t))
  | cons c t ih =>
    intro r₂ a₁ a₂ h₁ h₂ h
    cases r₂ with
    | nil =>
      simp only [List.cons_append, List.nil_append, List.cons.injEq] at h
      exact absurd h.1 (h₁ c (List.mem_cons_self c t))
    | cons c₂ t₂ =>
      simp only [List.cons_append, List.cons.injEq] at h
      obtain ⟨rfl, h⟩ := h
      obtain ⟨ht, ha⟩ := ih t₂ a₁ a₂ (fun x hx => h₁ x (List.mem_cons_of_mem _ hx))
        (fun x hx => h₂ x (List.mem_cons_of_mem _ hx)) h
      exact ⟨by rw [ht], ha⟩

theorem mkCacheKey_inj (p₁ p₂ : String) (m₁ m₂ : Nat)
    (h : mkCacheKey p₁ m₁ = mkCacheKey p₂ m₂) : p₁ = p₂ ∧ m₁ = m₂ := by
  have hd := congrArg String.data h
  simp only [mkCacheKey, String.data_append] at hd
  have hd' := congrArg List.reverse hd
  simp only [List.reverse_append, List.reverse_cons, List.reverse_singleton,
    List.singleton_append, List.append_assoc] at hd'
  obtain ⟨hr, hp⟩ := append_colon_inj _ _ _ _
    (fun c hc => natRepr_no_colon m₁ c (List.mem_reverse.mp hc))
    (fun c hc => natRepr_no_colon m₂ c (List.mem_reverse.mp hc)) hd'
  constructor
  · apply String.ext
    have := congrArg List.reverse hp
    simpa using this
  · apply natRepr_injective
    apply String.ext
    have := congrArg List.reverse hr
    simpa using this

/-!
### Declaration lookup — `_findConstAtLine` / `findExportAtLine`

`src/lineTracker.js` lines 157–177 and `src/refactorMolecule.js` lines
11–31 contain the same function: try the regex
`/export\s+const\s+(\w+)\s*=/` anywhere in the line, then the anchored
`/^(\s*)const\s+(\w+)\s*=/`.  Both regexes are deterministic (no fruitful
backtracking), so they are modelled by direct scans.
-/

/-- Result of the declaration lookup: `{ name, needsExport, constPosition }`. -/
structure ConstInfo where
  name : String
  needsExport : Bool
  constPosition : Option Nat
deriving DecidableEq, Repr

/-- Match `const\s+(\w+)\s*=` at the head of `l`, returning the captured
name. -/
def matchConstEq (l : List Char) : Option String :=
  if l.take 5 = "const".data then
    let l1 := l.drop 5
    if (l1.takeWhile isSpaceChar).length = 0 then none
    else
      let l2 := l1.dropWhile isSpaceChar
      let name := l2.takeWhile isWordChar
      if name.isEmpty then none
      else
        match (l2.dropWhile isWordChar).dropWhile isSpaceChar with
        | '=' :: _ => some (String.mk name)
        | _ => none
  else none

/-- Match `export\s+const\s+(\w+)\s*=` at the head of `l`. -/
def matchExportConstEq (l : List Char) : Option String :=
  if l.take 6 = "export".data then
    let l1 := l.drop 6
    if (l1.takeWhile isSpaceChar).length = 0 then none
    else matchConstEq (l1.dropWhile isSpaceChar)
  else none

/-- Leftmost unanchored regex search: try the matcher at every start
position from left to right (JS `String.prototype.match` semantics). -/
def searchFirst {α : Type} (f : List Char → Option α) : List Char → Option α
  | [] => f []
  | l@(_ :: rest) =>
    match f l with
    | some r => some r
    | none => searchFirst f rest

/-- Match the anchored `^(\s*)const\s+(\w+)\s*=`, returning the name and
the length of the leading whitespace (`match[1].length`). -/
def matchLeadingConst (l : List Char) : Option (String × Nat) :=
  let w0 := (l.takeWhile isSpaceChar).length
  match matchConstEq (l.dropWhile isSpaceChar) with
  | some name => some (name, w0)
  | none => none

/-- Transliteration of `_findConstAtLine` (lineTracker.js lines 157–177),
identical to `findExportAtLine` (refactorMolecule.js lines 11–31): split the
text into lines, bail out on a missing or empty (falsy) line, else try the
`export const` pattern and then the bare `const` pattern. -/
def findConstAtLine (text : String) (lineNumber : Nat) : Option ConstInfo :=
  match (splitLines text).get? lineNumber with
  | none => none
  | some line =>
    if line == "" then none
    else
      match searchFirst matchExportConstEq line.data with
      | some name => some ⟨name, false, none⟩
      | none =>
        match matchLeadingConst line.data with
        | some (name, leadingWhitespace) => some ⟨name, true, some leadingWhitespace⟩
        | none => none

/-- `findExportAtLine` of refactorMolecule.js is the same code as
`_findConstAtLine` of lineTracker.js. -/
def findExportAtLine (text : String) (lineNumber : Nat) : Option ConstInfo :=
  findConstAtLine text lineNumber

/-!
### Refactor command — `src/refactorMolecule.js`

`refactorMolecule` (lines 104–188) plus its helpers
`extractUsedConstructors` (36–39), `findImportInsertPosition` (45–60),
`getExistingImports` (65–77), `generateImportStatement` (82–86).  The
dynamic `loadModule` (91–99, returning `null` on failure) is a parameter;
the export auto-insertion and the final splices mutate the document text,
modelled by insertion at (line, column) positions of the current text.
-/

/-- Insert `s` at 0-based (line, column) `(lineNumber, col)` of `text`
(a single `TextEditorEdit.insert`). -/
def insertAtPos (text : String) (lineNumber col : Nat) (s : String) : String :=
  joinLines ((splitLines text).mapIdx (fun i ln =>
    if i = lineNumber then String.mk (ln.data.take col ++ s.data ++ ln.data.drop col)
    else ln))

/-- Transliteration of `extractUsedConstructors` (refactorMolecule.js lines
36–39): the fixed constructor list filtered by `code.includes(c + '(')`. -/
def extractUsedConstructors (code : String) : List String :=
  ["Ring", "Linear", "FusedRing", "Molecule"].filter
    (fun c => hasSubstr code.data (c ++ "(").data)

/-- Loop body state of `findImportInsertPosition`: returns the final
`lastImportLine` (an `Int`, `-1` when no import line was seen). -/
def findImportInsertPositionAux : List String → Nat → Int → Int
  | [], _, lastImportLine => lastImportLine
  | line :: rest, i, lastImportLine =>
    let t := jsTrim line
    if jsStartsWith t "import " then
      findImportInsertPositionAux rest (i + 1) (Int.ofNat i)
    else if !(t == "") && !jsStartsWith t "//" && !jsStartsWith t "/*" &&
        lastImportLine ≥ 0 then
      lastImportLine
    else
      findImportInsertPositionAux rest (i + 1) lastImportLine

/-- Transliteration of `findImportInsertPosition` (refactorMolecule.js lines
45–60): the line after the last import of the leading import block, or 0. -/
def findImportInsertPosition (text : String) : Nat :=
  (findImportInsertPositionAux (splitLines text) 0 (-1) + 1).toNat

/-- Match the regex `import\s*\{([^}]+)\}\s*from\s*['"]smiles-js['"]` at the
head of `l`; returns the captured brace content and the consumed length. -/
def matchImportFromSmilesJs (l : List Char) : Option (List Char × Nat) :=
  if l.take 6 = "import".data then
    let l1 := l.drop 6
    let w1 := (l1.takeWhile isSpaceChar).length
    match l1.dropWhile isSpaceChar with
    | b :: l2 =>
      if b == Char.ofNat 123 then
        let content := l2.takeWhile (fun c => !(c == Char.ofNat 125))
        if content.isEmpty then none
        else
          match l2.dropWhile (fun c => !(c == Char.ofNat 125)) with
          | _ :: l3 =>
            let w2 := (l3.takeWhile isSpaceChar).length
            let l4 := l3.dropWhile isSpaceChar
            if l4.take 4 = "from".data then
              let l5 := l4.drop 4
              let w3 := (l5.takeWhile isSpaceChar).length
              match l5.dropWhile isSpaceChar with
              | q1 :: l6 =>
                if isQuoteChar q1 && l6.take 9 = "smiles-js".data then
                  match l6.drop 9 with
                  | q2 :: _ =>
                    if isQuoteChar q2 then
                      some (content,
                        6 + w1 + 1 + content.length + 1 + w2 + 4 + w3 + 1 + 9 + 1)
                    else none
                  | [] => none
                else none
              | [] => none
            else none
          | [] => none
      else none
    | [] => none
  else none

/-- Global scan for `getExistingImports` (refactorMolecule.js lines 65–77):
collect every match's brace content, left to right, continuing after each
match (`exec` with the `g` flag).  Fuelled like the round-trip scanners. -/
def scanImportsFromSmilesJs : Nat → List Char → List (List Char)
  | 0, _ => []
  | _ + 1, [] => []
  | fuel + 1, l@(_ :: rest) =>
    match matchImportFromSmilesJs l with
    | some (content, consumed) =>
      content :: scanImportsFromSmilesJs fuel (l.drop consumed)
    | none => scanImportsFromSmilesJs fuel rest

/-- Transliteration of `getExistingImports` (refactorMolecule.js lines
65–77): each captured content is split on `,` and trimmed; the JS `Set` is
modelled as the list of collected names (only membership is consumed). -/
def getExistingImports (text : String) : List String :=
  (scanImportsFromSmilesJs text.data.length text.data).flatMap
    (fun content => (splitOnChar ',' content).map (fun s => jsTrim (String.mk s)))

/-- The single-quote character as a string (for building JS source text). -/
def sq : String := String.mk [singleQuoteChar]

/-- Transliteration of `generateImportStatement` (refactorMolecule.js lines
82–86). -/
def generateImportStatement (needed existing : List String) : Option String :=
  let missing := needed.filter (fun c => !existing.contains c)
  if missing.isEmpty then none
  else some ("import \x7b " ++ String.intercalate ", " missing ++
    " \x7d from " ++ sq ++ "smiles-js" ++ sq ++ ";\n")

/-- The exported value as consumed by `refactorMolecule`: `toCode` is
`none` when the export has no `toCode` method, otherwise the outcome of
calling it. -/
structure RefactorFragment where
  toCode : Option (JSResult String)

/-- The single user-facing message shown by `refactorMolecule`. -/
inductive RefactorMessage
  | errorMsg (m : String)
  | infoMsg (m : String)
deriving DecidableEq, Repr

/-- Result of a `refactorMolecule` invocation: the document text after the
command and the message shown. -/
structure RefactorResult where
  text : String
  message : RefactorMessage
deriving DecidableEq, Repr

/-- Apply the two insertions of the final `editor.edit` (refactorMolecule.js
lines 176–185): the optional import statement at `(importLine, 0)` and the
generated code at `(codeLine, 0)`.  Both positions refer to the pre-edit
text, so the insertion at the greater line is applied first. -/
def applyRefactorEdits (text : String) (importStatement : Option String)
    (importLine codeLine : Nat) (codeToInsert : String) : String :=
  match importStatement with
  | none => insertAtPos text codeLine 0 codeToInsert
  | some imp =>
    if importLine ≤ codeLine then
      insertAtPos (insertAtPos text codeLine 0 codeToInsert) importLine 0 imp
    else
      insertAtPos (insertAtPos text importLine 0 imp) codeLine 0 codeToInsert

/-- Transliteration of `refactorMolecule` (refactorMolecule.js lines
104–188).  `hasEditor` models `vscode.window.activeTextEditor` being
present, `isSmilesJsFile` the `.smiles.js` filename check, `loadedModule`
the result of `loadModule(document.fileName)` (`none` when it returned
`null`), mapping export names to values. -/
def refactorMolecule (hasEditor : Bool) (isSmilesJsFile : Bool) (text : String)
    (lineNumber : Nat) (loadedModule : Option (String → Option RefactorFragment)) :
    RefactorResult :=
  if !hasEditor then ⟨text, .errorMsg "No active editor"⟩
  else if !isSmilesJsFile then
    ⟨text, .errorMsg "This command only works in .smiles.js files"⟩
  else
    match findExportAtLine text lineNumber with
    | none => ⟨text, .errorMsg "No const declaration found on the current line"⟩
    | some exportInfo =>
      -- auto-insert `export ` and save before loading (lines 129–140)
      let text1 :=
        if exportInfo.needsExport then
          insertAtPos text lineNumber (exportInfo.constPosition.getD 0) "export "
        else text
      let exportVal := loadedModule.bind (fun m => m exportInfo.name)
      match exportVal with
      | none =>
        ⟨text1, .errorMsg ("Could not load export \"" ++ exportInfo.name ++ "\"")⟩
      | some fragment =>
        match fragment.toCode with
        | none =>
          ⟨text1, .errorMsg ("Export \"" ++ exportInfo.name ++
            "\" does not have a toCode() method")⟩
        | some (.exn msg) =>
          ⟨text1, .errorMsg ("Failed to generate code: " ++ msg)⟩
        | some (.ok code) =>
          let usedConstructors := extractUsedConstructors code
          let existingImports := getExistingImports text1
          let importStatement := generateImportStatement usedConstructors existingImports
          let codeToInsert := "\n// Refactored from " ++ exportInfo.name ++ ":\n" ++
            code ++ "\n"
          let text2 := applyRefactorEdits text1 importStatement
            (findImportInsertPosition text1) (lineNumber + 1) codeToInsert
          ⟨text2, .infoMsg ("Refactored \"" ++ exportInfo.name ++
            "\" to constructor code")⟩

/-!
## Claim theorems
-/

/-- C2: for every error or warning reported by the DSL engine with 1-based
`line`/`column` fields, the published diagnostic's range starts at editor
position `(line-1, column-1)`; when `endColumn` is supplied the range ends
at 0-based `endColumn-1`, and when it is absent the 0-based end column is
the 0-based start column plus 1, i.e. the original 1-based column value. -/
theorem C2_coordinate_conversion (issue : EngineIssue) (l c : Int)
    (hl : issue.line = some l) (hc : issue.column = some c) :
    ((errorToDiagnostic issue).range.startPos = ⟨l - 1, c - 1⟩ ∧
      (∀ e, issue.endColumn = some e →
        (errorToDiagnostic issue).range.endPos = ⟨l - 1, e - 1⟩) ∧
      (issue.endColumn = none →
        (errorToDiagnostic issue).range.endPos = ⟨l - 1, (c - 1) + 1⟩ ∧
          (c - 1) + 1 = c)) ∧
    ((warningToDiagnostic issue).range.startPos = ⟨l - 1, c - 1⟩ ∧
      (∀ e, issue.endColumn = some e →
        (warningToDiagnostic issue).range.endPos = ⟨l - 1, e - 1⟩) ∧
      (issue.endColumn = none →
        (warningToDiagnostic issue).range.endPos = ⟨l - 1, (c - 1) + 1⟩ ∧
          (c - 1) + 1 = c)) := by
  refine ⟨⟨?_, ?_, ?_⟩, ⟨?_, ?_, ?_⟩⟩
  · simp [errorToDiagnostic, hl, hc]
  · intro e he; simp [errorToDiagnostic, hl, hc, he]
  · intro he; refine ⟨by simp [errorToDiagnostic, hl, hc, he], by omega⟩
  · simp [warningToDiagnostic, hl, hc]
  · intro e he; simp [warningToDiagnostic, hl, hc, he]
  · intro he; refine ⟨by simp [warningToDiagnostic, hl, hc, he], by omega⟩

/-- C2 witness: a concrete engine error at 1-based line 3, column 5 with no
`endColumn` becomes a diagnostic from (2,4) to (2,5). -/
theorem C2_coordinate_conversion_witness :
    (errorToDiagnostic ⟨some 3, some 5, none, none, none, "m", none⟩).range.startPos =
      ⟨3 - 1, 5 - 1⟩ ∧
    (warningToDiagnostic ⟨some 3, some 5, none, none, none, "m", none⟩).range.endPos =
      ⟨3 - 1, (5 - 1) + 1⟩ :=
  ⟨(C2_coordinate_conversion ⟨some 3, some 5, none, none, none, "m", none⟩ 3 5 rfl rfl).1.1,
   ((C2_coordinate_conversion ⟨some 3, some 5, none, none, none, "m", none⟩ 3 5 rfl rfl).2.2.2
      rfl).1⟩

/-- C3 counterexample: the claim says every warning's severity is given by
the fixed category table, but `updateDiagnostics` publishes every warning
with severity `Warning` without consulting the table: a warning whose
category is `info` is published as `Warning` although the table maps `info`
to `Information`. -/
theorem C3_counterexample :
    (warningToDiagnostic ⟨some 1, some 1, none, some "info", none, "msg", none⟩).severity =
      Severity.warning ∧
    getSeverity (some "info") = Severity.information ∧
    Severity.warning ≠ Severity.information :=
  ⟨rfl, rfl, by decide⟩

/-- C3 amended: errors are published with the severity of the fixed
category table applied to `type || severity` (error, syntax, undefined,
circular, redefinition → Error; warning, chemistry → Warning; info →
Information; hint → Hint; anything else → Error), while warnings are always
published with severity `Warning`, regardless of their category. -/
theorem C3_amended_severity_table :
    (∀ e : EngineIssue,
        (errorToDiagnostic e).severity = getSeverity (jsOr e.type e.severity)) ∧
    getSeverity (some "error") = .error ∧
    getSeverity (some "syntax") = .error ∧
    getSeverity (some "undefined") = .error ∧
    getSeverity (some "circular") = .error ∧
    getSeverity (some "redefinition") = .error ∧
    getSeverity (some "warning") = .warning ∧
    getSeverity (some "chemistry") = .warning ∧
    getSeverity (some "info") = .information ∧
    getSeverity (some "hint") = .hint ∧
    (∀ t : Option String,
        t ≠ some "error" → t ≠ some "syntax" → t ≠ some "undefined" →
        t ≠ some "circular" → t ≠ some "redefinition" → t ≠ some "warning" →
        t ≠ some "chemistry" → t ≠ some "info" → t ≠ some "hint" →
        getSeverity t = .error) ∧
    (∀ w : EngineIssue, (warningToDiagnostic w).severity = .warning) := by
  refine ⟨fun e => rfl, rfl, rfl, rfl, rfl, rfl, rfl, rfl, rfl, rfl, ?_, fun w => rfl⟩
  intro t h1 h2 h3 h4 h5 h6 h7 h8 h9
  match t with
  | none => rfl
  | some s =>
    simp only [Option.some.injEq, ne_eq] at h1 h2 h3 h4 h5 h6 h7 h8 h9
    simp [getSeverity, h1, h2, h3, h4, h5, h6, h7, h8, h9]

/-- C3 amended witness: an unmatched category maps to `Error`, and a
concrete warning with category `error` is still published as `Warning`. -/
theorem C3_amended_severity_table_witness :
    getSeverity (some "mystery") = Severity.error ∧
    (warningToDiagnostic ⟨some 1, some 2, none, some "error", none, "m", none⟩).severity =
      Severity.warning := by
  have h := C3_amended_severity_table
  exact ⟨h.2.2.2.2.2.2.2.2.2.2.1 (some "mystery") (by decide) (by decide) (by decide)
      (by decide) (by decide) (by decide) (by decide) (by decide) (by decide),
    h.2.2.2.2.2.2.2.2.2.2.2 ⟨some 1, some 2, none, some "error", none, "m", none⟩⟩

/-- C8: a cursor-selection event on a supported editor triggers a resolve
if and only if the new line index differs from the stored current line,
whereas an editor switch to a supported document always triggers a resolve,
even when the line index is unchanged. -/
theorem C8_selection_vs_editor_switch :
    (∀ (st : TrackerState) (lineNumber : Nat),
        (handleSelectionChange st true lineNumber).2 = true ↔
          st.currentLine ≠ some lineNumber) ∧
    (∀ (st : TrackerState) (docId lineNumber : Nat),
        (handleEditorChange st true docId lineNumber).2 = true) := by
  constructor
  · intro st ln
    unfold handleSelectionChange
    by_cases h : st.currentLine = some ln
    · simp [h]
    · simp [h]
  · intro st d ln
    unfold handleEditorChange
    by_cases h : st.currentDocument = some d <;> simp [h]

/-- C8 witness: with current line 3, a selection event at line 4 resolves
and an editor switch landing on the same line 3 also resolves. -/
theorem C8_selection_vs_editor_switch_witness :
    (handleSelectionChange ⟨some 3, some 0, none⟩ true 4).2 = true ∧
    (handleEditorChange ⟨some 3, some 0, none⟩ true 1 3).2 = true :=
  ⟨(C8_selection_vs_editor_switch.1 ⟨some 3, some 0, none⟩ 4).mpr (by decide),
   C8_selection_vs_editor_switch.2 ⟨some 3, some 0, none⟩ 1 3⟩

/-- C10: on a successful build-format module load, when the declared export
resolves to a value whose `smiles` property is falsy (absent/null modelled
as `none`, or the empty string), the tracker emits `null` — the same output
as for an export that is missing altogether, so the two are
indistinguishable at the public interface. -/
theorem C10_falsy_smiles_emits_null :
    (∀ (currentLine : Nat) (lineText exportName : String)
        (module : String → Option Fragment) (fragment : Fragment),
        module exportName = some fragment →
        (fragment.smiles = none ∨ fragment.smiles = some "") →
        updateLineInfoSmilesJs currentLine lineText exportName (some module) none =
          none) ∧
    (∀ (currentLine : Nat) (lineText exportName : String)
        (module : String → Option Fragment),
        module exportName = none →
        updateLineInfoSmilesJs currentLine lineText exportName (some module) none =
          none) := by
  constructor
  · intro L lineText name module fragment hm hs
    unfold updateLineInfoSmilesJs
    rcases hs with hs | hs <;> simp [truthy, hm, hs]
  · intro L lineText name module hm
    unfold updateLineInfoSmilesJs
    simp [truthy, hm]

/-- C10 witness: an export carrying an empty-string `smiles` and a missing
export both emit `null`. -/
theorem C10_falsy_smiles_emits_null_witness :
    updateLineInfoSmilesJs 2 "export const x = Fragment(\"\")" "x"
      (some fun _ => some ⟨some "", none, none⟩) none = none ∧
    updateLineInfoSmilesJs 2 "export const x = Fragment(\"\")" "y"
      (some fun _ => none) none = none :=
  ⟨C10_falsy_smiles_emits_null.1 2 "export const x = Fragment(\"\")" "x"
      (fun _ => some ⟨some "", none, none⟩) ⟨some "", none, none⟩ rfl (Or.inr rfl),
   C10_falsy_smiles_emits_null.2 2 "export const x = Fragment(\"\")" "y"
      (fun _ => none) rfl⟩

/-- C9: for a DSL document and 0-based cursor line `L` on a non-blank,
non-comment line, the tracker resolves the definition whose 1-based
`sourceLine` equals `L + 1` (the emitted record carries that definition's
name and the cursor line); when no definition has that source line the
tracker emits `null`. -/
theorem C9_dsl_definition_lookup
    (L : Nat) (rawLineText : String) (defs : List Definition)
    (r1 r2 : JSResult (Option String)) (r3 : JSResult Int) (r4 : JSResult String) :
    (∀ d : Definition,
        (jsTrim rawLineText == "") = false →
        jsStartsWith (jsTrim rawLineText) "#" = false →
        defs.find? (fun d0 => d0.line == L + 1) = some d →
        ∃ info, updateLineInfoDsl L rawLineText defs r1 r2 r3 r4 = some info ∧
          info.name = d.name ∧ info.line = L) ∧
    ((∀ d ∈ defs, d.line ≠ L + 1) →
        updateLineInfoDsl L rawLineText defs r1 r2 r3 r4 = none) := by
  constructor
  · intro d hblank hhash hfind
    unfold updateLineInfoDsl
    simp only [hblank, hhash, Bool.or_self, if_false, hfind, Bool.false_eq_true]
    split
    · exact ⟨_, rfl, rfl, rfl⟩
    · exact ⟨_, rfl, rfl, rfl⟩
  · intro hnone
    have hfind : defs.find? (fun d0 => d0.line == L + 1) = none := by
      rw [List.find?_eq_none]
      intro d hd
      simpa using hnone d hd
    unfold updateLineInfoDsl
    simp only [hfind]
    split <;> rfl

/-- C9 witness: with definitions at 1-based lines 5, 6, 7, 10 and 11, the
cursor at editor line 4 resolves the definition at engine line 5, and the
blank editor line 8 (engine line 9) emits `null`. -/
theorem C9_dsl_definition_lookup_witness :
    (∃ info,
      updateLineInfoDsl 4 "[methanol] = [methyl][hydroxyl]"
        [⟨"methyl", 5, none⟩, ⟨"ethyl", 6, none⟩, ⟨"propyl", 7, none⟩,
         ⟨"hydroxyl", 10, none⟩, ⟨"amino", 11, none⟩]
        (.ok (some "[C][O]")) (.ok (some "CO")) (.ok 32) (.ok "CH4O") = some info ∧
      info.name = "methyl" ∧ info.line = 4) ∧
    updateLineInfoDsl 8 ""
      [⟨"methyl", 5, none⟩, ⟨"ethyl", 6, none⟩, ⟨"propyl", 7, none⟩,
       ⟨"hydroxyl", 10, none⟩, ⟨"amino", 11, none⟩]
      (.ok (some "[C][O]")) (.ok (some "CO")) (.ok 32) (.ok "CH4O") = none :=
  ⟨(C9_dsl_definition_lookup 4 "[methanol] = [methyl][hydroxyl]"
      [⟨"methyl", 5, none⟩, ⟨"ethyl", 6, none⟩, ⟨"propyl", 7, none⟩,
       ⟨"hydroxyl", 10, none⟩, ⟨"amino", 11, none⟩]
      (.ok (some "[C][O]")) (.ok (some "CO")) (.ok 32) (.ok "CH4O")).1
      ⟨"methyl", 5, none⟩ (by decide) (by decide) (by decide),
   (C9_dsl_definition_lookup 8 ""
      [⟨"methyl", 5, none⟩, ⟨"ethyl", 6, none⟩, ⟨"propyl", 7, none⟩,
       ⟨"hydroxyl", 10, none⟩, ⟨"amino", 11, none⟩]
      (.ok (some "[C][O]")) (.ok (some "CO")) (.ok 32) (.ok "CH4O")).2
      (by decide)⟩

/-- C4 counterexample: the claim says an exception thrown by the
molecular-property lookup lands in the emitted line's `error` field, but
`_updateLineInfo` swallows property-stage exceptions (empty catch at
lineTracker.js lines 332–334): with `getMolecularWeight` throwing "boom"
the emitted record's `error` is `null`, not "boom". -/
theorem C4_counterexample :
    updateLineInfoDsl 0 "[a] = [C]" [⟨"a", 1, some [.str "[C]"]⟩]
        (.ok (some "[C]")) (.ok (some "C")) (.exn "boom") (.ok "CH4") =
      some ⟨0, "a", "[C]", some "[C]", some "C", none, none, none⟩ ∧
    (none : Option String) ≠ some "boom" :=
  ⟨by decide, by decide⟩

/-- C4 amended: resolver and decoder exceptions land in the emitted
`ResolvedLine.error` with every earlier successfully computed field
preserved (expression; and the resolved notation when the resolver
succeeded); an exception in the molecular-property lookup is swallowed
instead: the emitted line keeps `error` null and only the property fields
are null (a formula exception still loses the weight computed in the same
`try`, and vice versa the weight exception loses both). -/
theorem C4_amended_error_propagation
    (L : Nat) (rawLineText : String) (defs : List Definition) (d : Definition)
    (hblank : (jsTrim rawLineText == "") = false)
    (hhash : jsStartsWith (jsTrim rawLineText) "#" = false)
    (hfind : defs.find? (fun d0 => d0.line == L + 1) = some d) :
    (∀ (m : String) (r2 : JSResult (Option String)) (r3 : JSResult Int)
        (r4 : JSResult String), (m == "") = false →
        updateLineInfoDsl L rawLineText defs (.exn m) r2 r3 r4 =
          some ⟨L, d.name, definitionExpression d, none, none, none, none, some m⟩) ∧
    (∀ (s m : String) (r3 : JSResult Int) (r4 : JSResult String),
        (s == "") = false → (m == "") = false →
        updateLineInfoDsl L rawLineText defs (.ok (some s)) (.exn m) r3 r4 =
          some ⟨L, d.name, definitionExpression d, some s, none, none, none, some m⟩) ∧
    (∀ (s t m : String) (r4 : JSResult String), (s == "") = false →
        updateLineInfoDsl L rawLineText defs (.ok (some s)) (.ok (some t))
            (.exn m) r4 =
          some ⟨L, d.name, definitionExpression d, some s, some t, none, none, none⟩) ∧
    (∀ (s t m : String) (w : Int), (s == "") = false →
        updateLineInfoDsl L rawLineText defs (.ok (some s)) (.ok (some t))
            (.ok w) (.exn m) =
          some ⟨L, d.name, definitionExpression d, some s, some t, some w, none,
            none⟩) := by
  refine ⟨?_, ?_, ?_, ?_⟩
  · intro m r2 r3 r4 hm
    unfold updateLineInfoDsl
    simp [hblank, hhash, hfind, truthy, jsOrDefault, hm]
  · intro s m r3 r4 hs hm
    unfold updateLineInfoDsl
    simp [hblank, hhash, hfind, truthy, hs, hm]
  · intro s t m r4 hs
    unfold updateLineInfoDsl
    simp [hblank, hhash, hfind, truthy, hs]
  · intro s t m w hs
    unfold updateLineInfoDsl
    simp [hblank, hhash, hfind, truthy, hs]

/-- C4 amended witness: concrete runs of all four stage-failure shapes. -/
theorem C4_amended_error_propagation_witness :
    updateLineInfoDsl 0 "[a] = [C]" [⟨"a", 1, some [.str "[C]"]⟩]
        (.exn "undefined fragment") (.ok (some "C")) (.ok 16) (.ok "CH4") =
      some ⟨0, "a", "[C]", none, none, none, none, some "undefined fragment"⟩ ∧
    updateLineInfoDsl 0 "[a] = [C]" [⟨"a", 1, some [.str "[C]"]⟩]
        (.ok (some "[C]")) (.exn "bad token") (.ok 16) (.ok "CH4") =
      some ⟨0, "a", "[C]", some "[C]", none, none, none, some "bad token"⟩ ∧
    updateLineInfoDsl 0 "[a] = [C]" [⟨"a", 1, some [.str "[C]"]⟩]
        (.ok (some "[C]")) (.ok (some "C")) (.exn "no weight") (.ok "CH4") =
      some ⟨0, "a", "[C]", some "[C]", some "C", none, none, none⟩ ∧
    updateLineInfoDsl 0 "[a] = [C]" [⟨"a", 1, some [.str "[C]"]⟩]
        (.ok (some "[C]")) (.ok (some "C")) (.ok 16) (.exn "no formula") =
      some ⟨0, "a", "[C]", some "[C]", some "C", some 16, none, none⟩ := by
  have h := C4_amended_error_propagation 0 "[a] = [C]" [⟨"a", 1, some [.str "[C]"]⟩]
    ⟨"a", 1, some [.str "[C]"]⟩ (by decide) (by decide) (by decide)
  exact ⟨h.1 "undefined fragment" (.ok (some "C")) (.ok 16) (.ok "CH4") (by decide),
    h.2.1 "[C]" "bad token" (.ok 16) (.ok "CH4") (by decide) (by decide),
    h.2.2.1 "[C]" "C" "no weight" (.ok "CH4") (by decide),
    h.2.2.2 "[C]" "C" "no formula" 16 (by decide)⟩

/-- C5 counterexample: the claim says a literal reachable both as a quoted
string literal and as a `smiles:`-labelled field value on the same line
yields exactly one extracted entry, but `extractSMILESFromLine` runs both
patterns independently: the line `smiles: "C1=CC=CC=C1"` yields two
identical entries (same literal, same span), not one. -/
theorem C5_counterexample :
    (extractSMILESFromLine "smiles: \"C1=CC=CC=C1\"" 7).map
        (fun e => (e.smiles, e.start, e.stop)) =
      [("C1=CC=CC=C1", 9, 20), ("C1=CC=CC=C1", 9, 20)] ∧
    (extractSMILESFromLine "smiles: \"C1=CC=CC=C1\"" 7).length ≠ 1 :=
  ⟨by decide, by decide⟩

/-!
Helper lemmas for the general C5 theorem.  They compute the two scanners on
the line families `x = <q>LIT<q>` and `smiles: <q>LIT<q>` for an arbitrary
literal `LIT` (no quote characters inside) and either quote character. -/

theorem quote_char_cases {q : Char} (hq : isQuoteChar q = true) :
    q = singleQuoteChar ∨ q = doubleQuoteChar := by
  unfold isQuoteChar at hq
  rcases Bool.or_eq_true_iff.mp hq with h | h
  · exact Or.inl (eq_of_beq h)
  · exact Or.inr (eq_of_beq h)

theorem quote_not_space {q : Char} (hq : isQuoteChar q = true) :
    isSpaceChar q = false := by
  rcases quote_char_cases hq with rfl | rfl <;> decide

theorem quote_ne_colon {q : Char} (hq : isQuoteChar q = true) : q ≠ ':' := by
  rcases quote_char_cases hq with rfl | rfl <;> decide

theorem findIdx?_append_singleton (q : Char) :
    ∀ (c : List Char) (i : Nat), (∀ x ∈ c, (x == q) = false) →
      List.findIdx? (fun x => x == q) (c ++ [q]) i = some (i + c.length) := by
  intro c
  induction c with
  | nil => intro i _; simp [List.findIdx?_cons]
  | cons a t ih =>
    intro i h
    have ha := h a (List.mem_cons_self a t)
    simp only [List.cons_append, List.findIdx?_cons, ha, Bool.false_eq_true,
      if_false, List.length_cons]
    rw [ih (i + 1) (fun x hx => h x (List.mem_cons_of_mem a hx))]
    congr 1
    omega

theorem scanStringLiterals_nil (n : Nat) :
    ∀ (fuel pos : Nat), scanStringLiterals n fuel [] pos = [] := by
  intro fuel pos
  cases fuel <;> rfl

theorem scanSmilesField_nil (n : Nat) :
    ∀ (fuel pos : Nat), scanSmilesField n fuel [] pos = [] := by
  intro fuel pos
  cases fuel <;> rfl

theorem scanStringLiterals_prefix (n : Nat) (pre : List Char)
    (hpre : ∀ x ∈ pre, isQuoteChar x = false) :
    ∀ (f pos : Nat) (rest : List Char),
      scanStringLiterals n (pre.length + f) (pre ++ rest) pos =
        scanStringLiterals n f rest (pos + pre.length) := by
  induction pre with
  | nil => intro f pos rest; simp
  | cons ch pre' ih =>
    intro f pos rest
    have hch : isQuoteChar ch = false := hpre ch (List.mem_cons_self ch pre')
    have hlen : (ch :: pre').length + f = (pre'.length + f) + 1 := by
      simp only [List.length_cons]
      omega
    rw [hlen]
    show scanStringLiterals n ((pre'.length + f) + 1) (ch :: (pre' ++ rest)) pos = _
    rw [scanStringLiterals]
    simp only [hch, Bool.false_eq_true, if_false]
    rw [ih (fun x hx => hpre x (List.mem_cons_of_mem ch hx)) f (pos + 1) rest]
    congr 1
    simp only [List.length_cons]
    omega

theorem scanStringLiterals_quote_head (n f pos : Nat) (q : Char) (c : List Char)
    (hq : isQuoteChar q = true) (hcq : ∀ x ∈ c, (x == q) = false) :
    scanStringLiterals n (f + 1) (q :: (c ++ [q])) pos =
      (if looksLikeSMILES (String.mk c) then
        [⟨String.mk c, pos + 1, pos + c.length + 1, n⟩] else []) := by
  have hfind : List.findIdx? (fun x => x == q) (c ++ [q]) 0 = some c.length := by
    rw [findIdx?_append_singleton q c 0 hcq]
    simp
  have hdrop : (c ++ [q]).drop (c.length + 1) = [] :=
    List.drop_eq_nil_of_le (by simp)
  rw [scanStringLiterals]
  simp only [hq, eq_self_iff_true, ite_true, hfind, List.take_left, hdrop,
    scanStringLiterals_nil]

theorem matchSmilesFieldAt_none_of_no_colon (l : List Char) (h : ':' ∉ l) :
    matchSmilesFieldAt l = none := by
  unfold matchSmilesFieldAt
  split
  · rename_i h6
    cases hd : (l.drop 6).dropWhile isSpaceChar with
    | nil => simp [hd]
    | cons ch l3 =>
      have hch : ch ≠ ':' := by
        intro heq
        apply h
        have hmem : ch ∈ (l.drop 6).dropWhile isSpaceChar := by
          rw [hd]; exact List.mem_cons_self _ _
        exact heq ▸ (List.drop_sublist 6 l).subset
          ((List.dropWhile_sublist _).subset hmem)
      simp only [hd]
      split
      · rename_i l3' heq
        exact absurd (List.cons.injEq _ _ _ _ ▸ heq).1 hch
      · rfl
  · rfl

theorem scanSmilesField_nil_of_no_colon (n : Nat) :
    ∀ (fuel : Nat) (l : List Char) (pos : Nat), ':' ∉ l →
      scanSmilesField n fuel l pos = [] := by
  intro fuel
  induction fuel with
  | zero => intro l pos _; rfl
  | succ f ih =>
    intro l pos h
    cases l with
    | nil => rfl
    | cons ch rest =>
      rw [scanSmilesField]
      rw [matchSmilesFieldAt_none_of_no_colon _ h]
      exact ih rest (pos + 1) (fun hm => h (List.mem_cons_of_mem ch hm))

theorem matchSmilesFieldAt_field (q : Char) (c : List Char)
    (hq : isQuoteChar q = true) (hcq : ∀ x ∈ c, (x == q) = false) :
    matchSmilesFieldAt
        ('s' :: 'm' :: 'i' :: 'l' :: 'e' :: 's' :: ':' :: ' ' :: q :: (c ++ [q])) =
      some (c, 8) := by
  have hqs : isSpaceChar q = false := quote_not_space hq
  have hfind : List.findIdx? (fun x => x == q) (c ++ [q]) 0 = some c.length := by
    rw [findIdx?_append_singleton q c 0 hcq]
    simp
  have htake : ('s' :: 'm' :: 'i' :: 'l' :: 'e' :: 's' :: ':' :: ' ' :: q ::
      (c ++ [q])).take 6 = "smiles".data := rfl
  have hdrop : ('s' :: 'm' :: 'i' :: 'l' :: 'e' :: 's' :: ':' :: ' ' :: q ::
      (c ++ [q])).drop 6 = ':' :: ' ' :: q :: (c ++ [q]) := rfl
  have hsc : isSpaceChar ':' = false := rfl
  have hsp : isSpaceChar ' ' = true := rfl
  unfold matchSmilesFieldAt
  simp only [htake, hdrop, List.takeWhile_cons, List.dropWhile_cons, hsc, hsp, hqs,
    Bool.false_eq_true, if_false, if_true, List.takeWhile_nil, List.length_cons,
    List.length_nil, hq, eq_self_iff_true, ite_true, hfind, List.take_left]

theorem scanSmilesField_field (n : Nat) (q : Char) (c : List Char)
    (hq : isQuoteChar q = true) (hcq : ∀ x ∈ c, (x == q) = false) :
    scanSmilesField n (c.length + 10)
        ('s' :: 'm' :: 'i' :: 'l' :: 'e' :: 's' :: ':' :: ' ' :: q :: (c ++ [q])) 0 =
      [⟨String.mk c, 9, c.length + 9, n⟩] := by
  rw [show c.length + 10 = (c.length + 9) + 1 from rfl, scanSmilesField,
    matchSmilesFieldAt_field q c hq hcq]
  have hdrop : ('s' :: 'm' :: 'i' :: 'l' :: 'e' :: 's' :: ':' :: ' ' :: q ::
      (c ++ [q])).drop (8 + 1 + c.length + 1) = [] :=
    List.drop_eq_nil_of_le (by simp; omega)
  simp only [hdrop, scanSmilesField_nil]
  congr 1
  congr 1 <;> first | rfl | omega

/-- C5 amended: the two extraction patterns run independently with no
deduplication between them, so whether a literal is reported once or twice
depends on which patterns actually match it.  For every SMILES-looking
literal containing no quote character and either quote character `q`: in a
plain quoted position with no `:` in the literal (so the field pattern
cannot fire) the line `x = <q>LIT<q>` yields exactly one extracted entry,
while as a field value the line `smiles: <q>LIT<q>` yields exactly two
entries with identical text and span — one per pattern — i.e. every such
field literal is double-reported. -/
theorem C5_amended_extraction (q : Char) (c : List Char) (lineNumber : Nat)
    (hq : isQuoteChar q = true)
    (hcq : ∀ x ∈ c, isQuoteChar x = false)
    (hsm : looksLikeSMILES (String.mk c) = true)
    (hcolon : ':' ∉ c) :
    extractSMILESFromLine (String.mk ('x' :: ' ' :: '=' :: ' ' :: q :: (c ++ [q])))
        lineNumber = [⟨String.mk c, 5, c.length + 5, lineNumber⟩] ∧
    extractSMILESFromLine
        (String.mk ('s' :: 'm' :: 'i' :: 'l' :: 'e' :: 's' :: ':' :: ' ' :: q ::
          (c ++ [q]))) lineNumber =
      [⟨String.mk c, 9, c.length + 9, lineNumber⟩,
       ⟨String.mk c, 9, c.length + 9, lineNumber⟩] := by
  have hcq' : ∀ x ∈ c, (x == q) = false := by
    intro x hx
    cases hbq : x == q
    · rfl
    · have hxq := hcq x hx
      rw [eq_of_beq hbq, hq] at hxq
      exact hxq
  constructor
  · -- `x = <q>LIT<q>`: pattern 1 finds the literal once; with no colon on
    -- the line, pattern 2 cannot match.
    unfold extractSMILESFromLine
    have hnocolon : ':' ∉ ('x' :: ' ' :: '=' :: ' ' :: q :: (c ++ [q])) := by
      intro hmem
      rcases List.mem_cons.mp hmem with h | hmem; · exact absurd h (by decide)
      rcases List.mem_cons.mp hmem with h | hmem; · exact absurd h (by decide)
      rcases List.mem_cons.mp hmem with h | hmem; · exact absurd h (by decide)
      rcases List.mem_cons.mp hmem with h | hmem; · exact absurd h (by decide)
      rcases List.mem_cons.mp hmem with h | hmem
      · exact quote_ne_colon hq h.symm
      rcases List.mem_append.mp hmem with h | h
      · exact hcolon h
      · rcases List.mem_singleton.mp h with rfl
        exact quote_ne_colon hq rfl
    have hp2 : scanSmilesField lineNumber
        (String.mk ('x' :: ' ' :: '=' :: ' ' :: q :: (c ++ [q]))).data.length
        (String.mk ('x' :: ' ' :: '=' :: ' ' :: q :: (c ++ [q]))).data 0 = [] :=
      scanSmilesField_nil_of_no_colon lineNumber _ _ 0 hnocolon
    have hp1 : scanStringLiterals lineNumber
        (String.mk ('x' :: ' ' :: '=' :: ' ' :: q :: (c ++ [q]))).data.length
        (String.mk ('x' :: ' ' :: '=' :: ' ' :: q :: (c ++ [q]))).data 0 =
        [⟨String.mk c, 5, c.length + 5, lineNumber⟩] := by
      have hlen : (String.mk ('x' :: ' ' :: '=' :: ' ' :: q ::
          (c ++ [q]))).data.length =
          (['x', ' ', '=', ' '] : List Char).length + (c.length + 2) := by
        simp
        omega
      have hline : (String.mk ('x' :: ' ' :: '=' :: ' ' :: q :: (c ++ [q]))).data =
          ['x', ' ', '=', ' '] ++ (q :: (c ++ [q])) := rfl
      rw [hlen, hline, scanStringLiterals_prefix lineNumber ['x', ' ', '=', ' ']
        (by decide) (c.length + 2) 0 (q :: (c ++ [q]))]
      rw [show c.length + 2 = (c.length + 1) + 1 from rfl]
      rw [scanStringLiterals_quote_head lineNumber (c.length + 1)
        (0 + (['x', ' ', '=', ' '] : List Char).length) q c hq hcq']
      simp only [hsm, ite_true]
      have hL : (['x', ' ', '=', ' '] : List Char).length = 4 := rfl
      rw [hL]
      congr 1
      congr 1 <;> first | rfl | omega
    rw [hp1, hp2, List.append_nil]
  · -- `smiles: <q>LIT<q>`: both patterns find the same occurrence.
    unfold extractSMILESFromLine
    have hp1 : scanStringLiterals lineNumber
        (String.mk ('s' :: 'm' :: 'i' :: 'l' :: 'e' :: 's' :: ':' :: ' ' :: q ::
          (c ++ [q]))).data.length
        (String.mk ('s' :: 'm' :: 'i' :: 'l' :: 'e' :: 's' :: ':' :: ' ' :: q ::
          (c ++ [q]))).data 0 =
        [⟨String.mk c, 9, c.length + 9, lineNumber⟩] := by
      have hlen : (String.mk ('s' :: 'm' :: 'i' :: 'l' :: 'e' :: 's' :: ':' :: ' ' ::
          q :: (c ++ [q]))).data.length =
          (['s', 'm', 'i', 'l', 'e', 's', ':', ' '] : List Char).length +
            (c.length + 2) := by
        simp
        omega
      have hline : (String.mk ('s' :: 'm' :: 'i' :: 'l' :: 'e' :: 's' :: ':' :: ' ' ::
          q :: (c ++ [q]))).data =
          ['s', 'm', 'i', 'l', 'e', 's', ':', ' '] ++ (q :: (c ++ [q])) := rfl
      rw [hlen, hline, scanStringLiterals_prefix lineNumber
        ['s', 'm', 'i', 'l', 'e', 's', ':', ' '] (by decide) (c.length + 2) 0
        (q :: (c ++ [q]))]
      rw [show c.length + 2 = (c.length + 1) + 1 from rfl]
      rw [scanStringLiterals_quote_head lineNumber (c.length + 1)
        (0 + (['s', 'm', 'i', 'l', 'e', 's', ':', ' '] : List Char).length) q c hq
        hcq']
      simp only [hsm, ite_true]
      have hL : (['s', 'm', 'i', 'l', 'e', 's', ':', ' '] : List Char).length = 8 :=
        rfl
      rw [hL]
      congr 1
      congr 1 <;> first | rfl | omega
    have hp2 : scanSmilesField lineNumber
        (String.mk ('s' :: 'm' :: 'i' :: 'l' :: 'e' :: 's' :: ':' :: ' ' :: q ::
          (c ++ [q]))).data.length
        (String.mk ('s' :: 'm' :: 'i' :: 'l' :: 'e' :: 's' :: ':' :: ' ' :: q ::
          (c ++ [q]))).data 0 =
        [⟨String.mk c, 9, c.length + 9, lineNumber⟩] := by
      have hlenF : (String.mk ('s' :: 'm' :: 'i' :: 'l' :: 'e' :: 's' :: ':' :: ' ' ::
          q :: (c ++ [q]))).data.length = c.length + 10 := by
        simp
      rw [hlenF]
      exact scanSmilesField_field lineNumber q c hq hcq'
    rw [hp1, hp2]
    rfl

/-- C5 amended witness: the two line families instantiated at the literal
`C1=CC=CC=C1` with the double-quote character, matching the concrete lines
of the counterexample. -/
theorem C5_amended_extraction_witness :
    extractSMILESFromLine (String.mk ('x' :: ' ' :: '=' :: ' ' :: doubleQuoteChar ::
        ("C1=CC=CC=C1".data ++ [doubleQuoteChar]))) 3 =
      [⟨"C1=CC=CC=C1", 5, "C1=CC=CC=C1".data.length + 5, 3⟩] ∧
    extractSMILESFromLine (String.mk ('s' :: 'm' :: 'i' :: 'l' :: 'e' :: 's' :: ':' ::
        ' ' :: doubleQuoteChar :: ("C1=CC=CC=C1".data ++ [doubleQuoteChar]))) 7 =
      [⟨"C1=CC=CC=C1", 9, "C1=CC=CC=C1".data.length + 9, 7⟩,
       ⟨"C1=CC=CC=C1", 9, "C1=CC=CC=C1".data.length + 9, 7⟩] :=
  ⟨(C5_amended_extraction doubleQuoteChar "C1=CC=CC=C1".data 3 (by decide)
      (by decide) (by decide) (by decide)).1,
   (C5_amended_extraction doubleQuoteChar "C1=CC=CC=C1".data 7 (by decide)
      (by decide) (by decide) (by decide)).2⟩

/-- C6 counterexample: the claim says a failing refactor command leaves the
document text unmodified, but when the current line is a bare `const`
declaration the command inserts `export ` and saves *before* attempting
the module load (refactorMolecule.js lines 129–140); when the load then
fails, the marker persists although a single failure message is shown. -/
theorem C6_counterexample :
    refactorMolecule true true "const water = Fragment(\"O\")" 0 none =
      ⟨"export const water = Fragment(\"O\")",
        .errorMsg "Could not load export \"water\""⟩ ∧
    "export const water = Fragment(\"O\")" ≠ "const water = Fragment(\"O\")" :=
  ⟨by decide, by decide⟩

/-- C6 amended: every failing invocation reports a single user-facing
message and performs no import splice and no code splice; the document text
is left unmodified, except that when the line's declaration lacked the
`export` keyword the auto-inserted (and saved) `export ` marker persists
even though a later stage (module load / export lookup, missing `toCode`
capability, or a generation throw) fails. -/
theorem C6_amended_failure_behavior :
    (∀ (b : Bool) (text : String) (ln : Nat)
        (module : Option (String → Option RefactorFragment)),
        refactorMolecule false b text ln module =
          ⟨text, .errorMsg "No active editor"⟩) ∧
    (∀ (text : String) (ln : Nat) (module : Option (String → Option RefactorFragment)),
        refactorMolecule true false text ln module =
          ⟨text, .errorMsg "This command only works in .smiles.js files"⟩) ∧
    (∀ (text : String) (ln : Nat) (module : Option (String → Option RefactorFragment)),
        findExportAtLine text ln = none →
        refactorMolecule true true text ln module =
          ⟨text, .errorMsg "No const declaration found on the current line"⟩) ∧
    (∀ (text : String) (ln : Nat) (module : Option (String → Option RefactorFragment))
        (info : ConstInfo), findExportAtLine text ln = some info →
        (info.needsExport = false →
          (if info.needsExport then
            insertAtPos text ln (info.constPosition.getD 0) "export "
          else text) = text) ∧
        (module.bind (fun m => m info.name) = none →
          refactorMolecule true true text ln module =
            ⟨(if info.needsExport then
                insertAtPos text ln (info.constPosition.getD 0) "export "
              else text),
             .errorMsg ("Could not load export \"" ++ info.name ++ "\"")⟩) ∧
        (∀ fragment, module.bind (fun m => m info.name) = some fragment →
          fragment.toCode = none →
          refactorMolecule true true text ln module =
            ⟨(if info.needsExport then
                insertAtPos text ln (info.constPosition.getD 0) "export "
              else text),
             .errorMsg ("Export \"" ++ info.name ++
               "\" does not have a toCode() method")⟩) ∧
        (∀ fragment msg, module.bind (fun m => m info.name) = some fragment →
          fragment.toCode = some (.exn msg) →
          refactorMolecule true true text ln module =
            ⟨(if info.needsExport then
                insertAtPos text ln (info.constPosition.getD 0) "export "
              else text),
             .errorMsg ("Failed to generate code: " ++ msg)⟩)) := by
  refine ⟨fun b text ln module => rfl, fun text ln module => rfl, ?_, ?_⟩
  · intro text ln module hfind
    unfold refactorMolecule
    simp only [hfind, Bool.not_true, Bool.false_eq_true, if_false]
  · intro text ln module info hfind
    refine ⟨fun h => by simp [h], ?_, ?_, ?_⟩
    · intro hload
      unfold refactorMolecule
      simp only [hfind, hload, Bool.not_true, Bool.false_eq_true, if_false]
    · intro fragment hload htc
      unfold refactorMolecule
      simp only [hfind, hload, htc, Bool.not_true, Bool.false_eq_true, if_false]
    · intro fragment msg hload htc
      unfold refactorMolecule
      simp only [hfind, hload, htc, Bool.not_true, Bool.false_eq_true, if_false]

/-- C6 amended witness: the bare-declaration line with a failing load keeps
the inserted marker; an already-exported line with a failing load is left
untouched. -/
theorem C6_amended_failure_behavior_witness :
    refactorMolecule true true "const water = Fragment(\"O\")" 0 none =
      ⟨"export const water = Fragment(\"O\")",
        .errorMsg "Could not load export \"water\""⟩ ∧
    refactorMolecule true true "export const water = Fragment(\"O\")" 0 none =
      ⟨"export const water = Fragment(\"O\")",
        .errorMsg "Could not load export \"water\""⟩ := by
  have h1 := (C6_amended_failure_behavior.2.2.2 "const water = Fragment(\"O\")" 0 none
    ⟨"water", true, some 0⟩ (by decide)).2.1 rfl
  have h2 := (C6_amended_failure_behavior.2.2.2 "export const water = Fragment(\"O\")" 0
    none ⟨"water", false, none⟩ (by decide)).2.1 rfl
  refine ⟨by simpa using h1, by simpa using h2⟩

/-- C7 counterexample: the claim says a cache miss first clears the cache
and then performs the fresh load, but `_loadSmilesModule` runs the fresh
dynamic load first and only calls `this._smilesModuleCache.clear()` after
that load settles (line 134 on success, line 140 in the catch): on a
concrete miss the clear does not occur before the load in the trace. -/
theorem C7_counterexample :
    (loadSmilesModule ([] : List (CacheEntry Nat)) "mol.smiles.js" 5
        (.ok 42) none).2.2 =
      [.requireCacheDelete, .dynamicImport, .cacheClear, .cacheSet] ∧
    opOccursBefore .cacheClear .dynamicImport
      (loadSmilesModule ([] : List (CacheEntry Nat)) "mol.smiles.js" 5
        (.ok 42) none).2.2 = false :=
  ⟨by decide, by decide⟩

/-- C7 amended: on every cache miss the operations occur in the order
require-cache delete, fresh cache-busting import, whole-cache clear, then
(on success) install of the new entry — the whole-cache eviction happens
after the load settles, not before it; when the load fails the cache is
left empty and the failure is surfaced to the caller (with best-effort line
annotation), and the import is attempted exactly once (no retry). -/
theorem C7_amended_miss_order {Mod : Type} (cache : List (CacheEntry Mod))
    (filePath : String) (mtimeMs : Nat) (importResult : JSResult Mod)
    (stackLine : Option Nat)
    (hmiss : cache.find? (fun e => e.key == mkCacheKey filePath mtimeMs) = none) :
    (∀ m : Mod, importResult = .ok m →
      (loadSmilesModule cache filePath mtimeMs importResult stackLine).2.2 =
        [.requireCacheDelete, .dynamicImport, .cacheClear, .cacheSet] ∧
      (loadSmilesModule cache filePath mtimeMs importResult stackLine).1 =
        [⟨mkCacheKey filePath mtimeMs, filePath, mtimeMs, m⟩]) ∧
    (∀ msg, importResult = .exn msg →
      (loadSmilesModule cache filePath mtimeMs importResult stackLine).2.2 =
        [.requireCacheDelete, .dynamicImport, .cacheClear] ∧
      (loadSmilesModule cache filePath mtimeMs importResult stackLine).1 = [] ∧
      (loadSmilesModule cache filePath mtimeMs importResult stackLine).2.1 =
        ⟨none, some (match stackLine with
          | some n => "Line " ++ Nat.repr n ++ ": " ++ msg
          | none => msg)⟩) ∧
    ((loadSmilesModule cache filePath mtimeMs importResult stackLine).2.2.count
        .dynamicImport = 1) := by
  refine ⟨?_, ?_, ?_⟩
  · intro m hm
    subst hm
    unfold loadSmilesModule
    simp [hmiss]
  · intro msg hm
    subst hm
    unfold loadSmilesModule
    simp [hmiss]
  · unfold loadSmilesModule
    simp only [hmiss]
    cases importResult <;> simp [List.count_cons, List.count_nil]

/-- C7 amended witness: a failing miss on the empty cache. -/
theorem C7_amended_miss_order_witness :
    (loadSmilesModule ([] : List (CacheEntry Nat)) "mol.smiles.js" 5
        (.exn "SyntaxError") (some 3)).2.2 =
      [.requireCacheDelete, .dynamicImport, .cacheClear] ∧
    (loadSmilesModule ([] : List (CacheEntry Nat)) "mol.smiles.js" 5
        (.exn "SyntaxError") (some 3)).1 = [] ∧
    (loadSmilesModule ([] : List (CacheEntry Nat)) "mol.smiles.js" 5
        (.exn "SyntaxError") (some 3)).2.1 =
      ⟨none, some ("Line " ++ Nat.repr 3 ++ ": " ++ "SyntaxError")⟩ :=
  (C7_amended_miss_order ([] : List (CacheEntry Nat)) "mol.smiles.js" 5
    (.exn "SyntaxError") (some 3) (by decide)).2.1 "SyntaxError" rfl

/-- The cache length invariant: every reachable `_smilesModuleCache` holds
at most one entry. -/
theorem reachable_cache_length {Mod : Type} (cache : List (CacheEntry Mod))
    (h : ReachableCache cache) : cache.length ≤ 1 := by
  induction h with
  | init => simp
  | step cache fp mt imp sl _ ih =>
    unfold loadSmilesModule
    cases hfind : cache.find? (fun e => e.key == mkCacheKey fp mt) with
    | some e => simpa [hfind] using ih
    | none => cases imp <;> simp [hfind]

/-- The key invariant: every resident entry's key is the
`` `${path}:${mtime}` `` string of its capture metadata. -/
theorem reachable_cache_key_sound {Mod : Type} (cache : List (CacheEntry Mod))
    (h : ReachableCache cache) :
    ∀ e ∈ cache, e.key = mkCacheKey e.path e.mtime := by
  induction h with
  | init => simp
  | step cache fp mt imp sl _ ih =>
    unfold loadSmilesModule
    cases hfind : cache.find? (fun e => e.key == mkCacheKey fp mt) with
    | some e => simpa [hfind] using ih
    | none =>
      cases imp with
      | ok m => simp [hfind]
      | exn msg => simp [hfind]

/-- C1: for every `_loadSmilesModule` call on a reachable cache, the
returned exports were captured at the file's current modification time —
either they come from the fresh import performed now, or from a resident
entry whose capture path and modification time equal the current ones (the
key embeds both, and keys determine them uniquely) — and after the call
completes (hit, successful miss, or failed miss) the cache holds at most
one resident entry. -/
theorem C1_module_cache_freshness {Mod : Type} (cache : List (CacheEntry Mod))
    (h : ReachableCache cache) (filePath : String) (mtimeMs : Nat)
    (importResult : JSResult Mod) (stackLine : Option Nat) :
    (loadSmilesModule cache filePath mtimeMs importResult stackLine).1.length ≤ 1 ∧
    (∀ m, (loadSmilesModule cache filePath mtimeMs importResult
        stackLine).2.1.module = some m →
      importResult = .ok m ∨
        ∃ e ∈ cache, e.exports = m ∧ e.path = filePath ∧ e.mtime = mtimeMs) := by
  constructor
  · exact reachable_cache_length _
      (ReachableCache.step cache filePath mtimeMs importResult stackLine h)
  · intro m hm
    unfold loadSmilesModule at hm
    cases hfind : cache.find? (fun e => e.key == mkCacheKey filePath mtimeMs) with
    | some e =>
      simp only [hfind, Option.some.injEq] at hm
      right
      have hmem : e ∈ cache := List.mem_of_find?_eq_some hfind
      have hkey := List.find?_some hfind
      have hsound := reachable_cache_key_sound cache h e hmem
      obtain ⟨hp, hmt⟩ := mkCacheKey_inj e.path filePath e.mtime mtimeMs
        (by rw [← hsound]; exact eq_of_beq hkey)
      exact ⟨e, hmem, hm, hp, hmt⟩
    | none =>
      simp only [hfind] at hm
      cases importResult with
      | ok mm =>
        left
        simp only [Option.some.injEq] at hm
        rw [hm]
      | exn msg => simp at hm

/-- C1 witness: a successful miss on the initial empty cache installs one
entry and returns the freshly imported exports. -/
theorem C1_module_cache_freshness_witness :
    (loadSmilesModule ([] : List (CacheEntry Nat)) "mol.smiles.js" 5
        (JSResult.ok 42) none).1.length ≤ 1 ∧
    (JSResult.ok 42 = JSResult.ok 42 ∨
      ∃ e ∈ ([] : List (CacheEntry Nat)), e.exports = 42 ∧
        e.path = "mol.smiles.js" ∧ e.mtime = 5) :=
  ⟨(C1_module_cache_freshness [] .init "mol.smiles.js" 5 (.ok 42) none).1,
   (C1_module_cache_freshness [] .init "mol.smiles.js" 5 (.ok 42) none).2 42
     (by decide)⟩

end SmilesVscode
